import Mathlib

/-!
Verification of the round orchestration, client sampling, aggregation
weighting, evaluation-split and error-handling logic of the federated
learning experiment drivers in this repository
(`federated_emnist.py`, `federated_stackoverflow.py`, `federated_trainer.py`).

Client identifiers, datasets and examples are modelled as natural numbers
or abstract types; datasets appear as Lean lists in the order the source
enumerates them.  Helper modules that the drivers import but that are not
part of this repository snapshot (`training_utils`, `training_loop`,
`keras_metrics`, `fed_avg_schedule`) are modelled from the specification,
as flagged in each doc comment.
-/

namespace FedOpt

/-- A linear congruential pseudo-random step, used as the deterministic
randomness source of the modelled client sampler. -/
def lcg (s : Nat) : Nat := (s * 1103515245 + 12345) % 2 ^ 31

/-- Modelled from the spec: the per-round random stream of the client
sampler is seeded by the pair `(seed, round_index)` alone, so that the
selection for a round is a deterministic, reproducible function of
`(seed, round_index)` (spec section 4.1). -/
def mixSeed (seed r : Nat) : Nat := lcg (seed * 2654435761 + r)

/-- Modelled from the spec: draw `k` clients without replacement from
`pool`, driven by the pseudo-random state `st`.  Each chosen client is
removed from the pool before the next draw, so no client id appears twice
within a single round's subset (spec section 3, SamplingState). -/
def drawDistinct : Nat → Nat → List Nat → List Nat
  | 0, _, _ => []
  | _ + 1, _, [] => []
  | k + 1, st, x :: xs =>
    let pool := x :: xs
    let chosen := pool.getD (st % pool.length) x
    chosen :: drawDistinct k (lcg st) (pool.erase chosen)

/-- Modelled from the spec: configuration errors raised by the sampler
(spec section 7). -/
inductive ConfigurationError where
  | clientsPerRoundExceedsTotal (requested available : Nat)
deriving DecidableEq

/-- Modelled from the spec: `training_utils.build_client_datasets_fn`
(called from `federated_emnist.py` lines 102-105 and
`federated_stackoverflow.py` lines 170-173 but not part of this
repository snapshot).  `sample(round_index, clients_per_round, seed)`
returns `clients_per_round` distinct client identifiers, or fails with a
`ConfigurationError` when `clients_per_round` exceeds the number of
available clients (spec section 4.1). -/
def sampleClients (seed k : Nat) (ids : List Nat) (r : Nat) :
    Except ConfigurationError (List Nat) :=
  if ids.length < k then
    .error (.clientsPerRoundExceedsTotal k ids.length)
  else
    .ok (drawDistinct k (mixSeed seed r) ids)

/-- The client list carried by a successful sampling result. -/
def sampleResultList : Except ConfigurationError (List Nat) → List Nat
  | .ok l => l
  | .error _ => []

/-- The per-round client subset handed to the round driver. -/
def clientsFor (seed k : Nat) (ids : List Nat) (r : Nat) : List Nat :=
  sampleResultList (sampleClients seed k ids r)

/-- Whether an `Except` result is a success. -/
def exceptIsOk {ε α : Type} : Except ε α → Bool
  | .ok _ => true
  | .error _ => false

/-- The sequence of per-round sampling results of one run of the client
sampler over a list of round indices. -/
def runSamplerSeq (seed k : Nat) (ids : List Nat) (rounds : List Nat) :
    List (Except ConfigurationError (List Nat)) :=
  rounds.map (sampleClients seed k ids)

theorem drawDistinct_subset (k : Nat) :
    ∀ (st : Nat) (pool : List Nat), drawDistinct k st pool ⊆ pool := by
  induction k with
  | zero => intro st pool; simp [drawDistinct]
  | succ k ih =>
    intro st pool
    match pool with
    | [] => simp [drawDistinct]
    | x :: xs =>
      simp only [drawDistinct]
      intro a ha
      rcases List.mem_cons.mp ha with h | h
      · subst h
        rcases Nat.lt_or_ge (st % (x :: xs).length) (x :: xs).length with hlt | hge
        · rw [List.getD_eq_getElem _ _ hlt]
          exact List.getElem_mem hlt
        · rw [List.getD_eq_default _ _ hge]
          exact List.mem_cons_self x xs
      · exact (List.erase_subset _ _) (ih (lcg st) ((x :: xs).erase _) h)

theorem drawDistinct_chosen_mem (st x : Nat) (xs : List Nat) :
    (x :: xs).getD (st % (x :: xs).length) x ∈ x :: xs := by
  have hlt : st % (x :: xs).length < (x :: xs).length :=
    Nat.mod_lt _ (by simp)
  rw [List.getD_eq_getElem _ _ hlt]
  exact List.getElem_mem hlt

theorem drawDistinct_nodup (k : Nat) :
    ∀ (st : Nat) (pool : List Nat), pool.Nodup →
      (drawDistinct k st pool).Nodup := by
  induction k with
  | zero => intro st pool _; simp [drawDistinct]
  | succ k ih =>
    intro st pool hnd
    match pool with
    | [] => simp [drawDistinct]
    | x :: xs =>
      simp only [drawDistinct]
      refine List.nodup_cons.mpr ⟨?_, ih _ _ (hnd.erase _)⟩
      intro hmem
      have hsub := drawDistinct_subset k (lcg st) ((x :: xs).erase _) hmem
      have := (hnd.mem_erase_iff.mp hsub).1
      exact this rfl

theorem drawDistinct_length (k : Nat) :
    ∀ (st : Nat) (pool : List Nat), k ≤ pool.length →
      (drawDistinct k st pool).length = k := by
  induction k with
  | zero => intro st pool _; simp [drawDistinct]
  | succ k ih =>
    intro st pool hk
    match pool with
    | [] => simp at hk
    | x :: xs =>
      simp only [drawDistinct]
      have hmem := drawDistinct_chosen_mem st x xs
      have herase : ((x :: xs).erase ((x :: xs).getD (st % (x :: xs).length) x)).length
          = (x :: xs).length - 1 := List.length_erase_of_mem hmem
      have hk' : k ≤ ((x :: xs).erase ((x :: xs).getD (st % (x :: xs).length) x)).length := by
        rw [herase]
        simp only [List.length_cons] at hk ⊢
        omega
      rw [List.length_cons, ih _ _ hk']

theorem sampleClients_ok (seed k r : Nat) (ids : List Nat) (hk : k ≤ ids.length) :
    sampleClients seed k ids r = .ok (drawDistinct k (mixSeed seed r) ids) := by
  simp [sampleClients, Nat.not_lt.mpr hk]

theorem clientsFor_eq (seed k r : Nat) (ids : List Nat) (hk : k ≤ ids.length) :
    clientsFor seed k ids r = drawDistinct k (mixSeed seed r) ids := by
  rw [clientsFor, sampleClients_ok seed k r ids hk, sampleResultList]

theorem clientsFor_length (seed k r : Nat) (ids : List Nat) (hk : k ≤ ids.length) :
    (clientsFor seed k ids r).length = k := by
  rw [clientsFor_eq seed k r ids hk]
  exact drawDistinct_length k _ ids hk

theorem clientsFor_nodup (seed k r : Nat) (ids : List Nat)
    (hnd : ids.Nodup) (hk : k ≤ ids.length) :
    (clientsFor seed k ids r).Nodup := by
  rw [clientsFor_eq seed k r ids hk]
  exact drawDistinct_nodup k _ ids hnd

theorem clientsFor_subset (seed k r : Nat) (ids : List Nat) (hk : k ≤ ids.length) :
    clientsFor seed k ids r ⊆ ids := by
  rw [clientsFor_eq seed k r ids hk]
  exact drawDistinct_subset k _ ids

/-- The two-operation contract of the external iterative training process
(`federated_emnist.py` lines 46-52): `initialize` produces the initial
server state `initState`, and `next` maps the current server state and
the sampled client datasets to the next server state and round metrics.
Client datasets are identified with the sampled client ids (dataset
resolution is an opaque external collaborator). -/
structure IterativeProcess (S T : Type) where
  initState : S
  next : S → List Nat → S × T

/-- Observable events of one experiment run: the single call to the
training process's `initialize` operation, and per round the sampler
invocation, the call to `next` with the sampled client datasets, and the
commit of the returned server state. -/
inductive TraceEvent where
  | initCall : TraceEvent
  | sampleCall (r : Nat) : TraceEvent
  | nextCall (r : Nat) (clients : List Nat) : TraceEvent
  | commitCall (r : Nat) (clients : List Nat) : TraceEvent
deriving DecidableEq

/-- The outcome of a run: the event trace, the final server state and the
recorded per-round metrics. -/
structure RunResult (S T : Type) where
  trace : List TraceEvent
  finalState : S
  metrics : List T

/-- Modelled from the spec: the body of `training_loop.run`
(`federated_emnist.py` lines 117-121, `federated_stackoverflow.py`
lines 194-198; the `training_loop` module is not part of this repository
snapshot).  For round index `r` in `0 .. num_rounds - 1`: sample clients,
resolve their datasets, call `next`, record the metrics and replace the
server state (spec section 4.2).  `m` counts the rounds still to run. -/
def runRounds {S T : Type} (p : IterativeProcess S T) (seed k : Nat)
    (ids : List Nat) : Nat → Nat → S → RunResult S T
  | _, 0, s => ⟨[], s, []⟩
  | r, m + 1, s =>
    let clients := clientsFor seed k ids r
    let step := p.next s clients
    let rest := runRounds p seed k ids (r + 1) m step.1
    ⟨.sampleCall r :: .nextCall r clients :: .commitCall r clients :: rest.trace,
      rest.finalState, step.2 :: rest.metrics⟩

/-- Modelled from the spec: `training_loop.run` calls `initialize` once at
experiment start and then drives `numRounds` rounds sequentially. -/
def trainingLoopRun {S T : Type} (p : IterativeProcess S T) (seed k : Nat)
    (ids : List Nat) (numRounds : Nat) : RunResult S T :=
  let rest := runRounds p seed k ids 0 numRounds p.initState
  ⟨.initCall :: rest.trace, rest.finalState, rest.metrics⟩

/-- The three events one round contributes to the trace. -/
def roundEvents (seed k : Nat) (ids : List Nat) (r : Nat) : List TraceEvent :=
  [.sampleCall r, .nextCall r (clientsFor seed k ids r),
    .commitCall r (clientsFor seed k ids r)]

/-- Whether an event is the call to the `initialize` operation. -/
def isInitEvent : TraceEvent → Bool
  | .initCall => true
  | _ => false

/-- Whether an event is a call to the `next` operation. -/
def isNextEvent : TraceEvent → Bool
  | .nextCall _ _ => true
  | _ => false

/-- Projects the sampler invocations and state commits out of a trace:
`(false, r)` marks the sampling of round `r`, `(true, r)` the commit of
round `r`'s server state. -/
def sampleCommitTag : TraceEvent → Option (Bool × Nat)
  | .sampleCall r => some (false, r)
  | .commitCall r _ => some (true, r)
  | _ => none

theorem runRounds_trace {S T : Type} (p : IterativeProcess S T)
    (seed k : Nat) (ids : List Nat) :
    ∀ (m r : Nat) (s : S),
      (runRounds p seed k ids r m s).trace
        = (List.range' r m).flatMap (roundEvents seed k ids) := by
  intro m
  induction m with
  | zero => intro r s; simp [runRounds]
  | succ m ih =>
    intro r s
    simp only [runRounds, List.range'_succ, List.flatMap_cons]
    rw [ih]
    rfl

theorem runRounds_finalState {S T : Type} (p : IterativeProcess S T)
    (seed k : Nat) (ids : List Nat) :
    ∀ (m r : Nat) (s : S),
      (runRounds p seed k ids r m s).finalState
        = (List.range' r m).foldl
            (fun s r => (p.next s (clientsFor seed k ids r)).1) s := by
  intro m
  induction m with
  | zero => intro r s; simp [runRounds]
  | succ m ih =>
    intro r s
    simp only [runRounds, List.range'_succ, List.foldl_cons]
    exact ih (r + 1) _

theorem bind_roundEvents_filter_next (seed k : Nat) (ids : List Nat) :
    ∀ l : List Nat,
      ((l.flatMap (roundEvents seed k ids)).filter isNextEvent)
        = l.map (fun r => .nextCall r (clientsFor seed k ids r)) := by
  intro l
  induction l with
  | nil => rfl
  | cons a l ih =>
    simp only [List.flatMap_cons, List.filter_append, List.map_cons, ih]
    rfl

theorem bind_roundEvents_countP_init (seed k : Nat) (ids : List Nat) :
    ∀ l : List Nat,
      (l.flatMap (roundEvents seed k ids)).countP isInitEvent = 0 := by
  intro l
  induction l with
  | nil => rfl
  | cons a l ih =>
    simp only [List.flatMap_cons, List.countP_append, ih]
    rfl

theorem bind_roundEvents_filterMap_tag (seed k : Nat) (ids : List Nat) :
    ∀ l : List Nat,
      ((l.flatMap (roundEvents seed k ids)).filterMap sampleCommitTag)
        = l.flatMap (fun r => [(false, r), (true, r)]) := by
  intro l
  induction l with
  | nil => rfl
  | cons a l ih =>
    simp only [List.flatMap_cons, List.filterMap_append, ih]
    rfl

/-- The property claimed for the sampler contract (C2): the sampling call
succeeds and returns exactly `k` distinct client identifiers drawn from
`ids`, while a request `k2` exceeding the `ids2` universe fails with a
`ConfigurationError`. -/
def c2Spec (seed r k : Nat) (ids : List Nat) (k2 : Nat) (ids2 : List Nat) : Prop :=
  exceptIsOk (sampleClients seed k ids r) = true
  ∧ (clientsFor seed k ids r).length = k
  ∧ (clientsFor seed k ids r).Nodup
  ∧ clientsFor seed k ids r ⊆ ids
  ∧ sampleClients seed k2 ids2 r
      = .error (.clientsPerRoundExceedsTotal k2 ids2.length)

/-- C1: for a fixed seed and clients-per-round value, the sampled subset
for a round is a deterministic function of `(seed, round_index)`: in any
two runs of the client sampler, positions holding the same round index
hold the same sampling result, so two runs over the same round indices
produce the identical sequence of per-round client subsets. -/
theorem sampler_reproducible (seed k : Nat) (ids : List Nat)
    (rounds₁ rounds₂ : List Nat) (i j : Nat)
    (h : rounds₁[i]? = rounds₂[j]?) :
    (runSamplerSeq seed k ids rounds₁)[i]?
      = (runSamplerSeq seed k ids rounds₂)[j]? := by
  simp only [runSamplerSeq, List.getElem?_map, h]

/-- Witness for C1 at concrete inputs: round index 5 appears at position 1
of both round sequences, and the sampled subsets there coincide. -/
theorem sampler_reproducible_witness :
    (([0, 5] : List Nat)[1]? = ([7, 5, 9] : List Nat)[1]?)
    ∧ (runSamplerSeq 3 2 [0, 1, 2, 3, 4] [0, 5])[1]?
        = (runSamplerSeq 3 2 [0, 1, 2, 3, 4] [7, 5, 9])[1]? :=
  ⟨by decide,
    sampler_reproducible 3 2 [0, 1, 2, 3, 4] [0, 5] [7, 5, 9] 1 1 (by decide)⟩

/-- C2: for every round, the client sampler returns exactly
`clients_per_round` distinct client identifiers from the available
universe, and it fails with a `ConfigurationError` when
`clients_per_round` exceeds the total number of available clients. -/
theorem sampler_size_and_config_error (seed r k : Nat) (ids : List Nat)
    (k2 : Nat) (ids2 : List Nat) (hnd : ids.Nodup) (hk : k ≤ ids.length)
    (hover : ids2.length < k2) : c2Spec seed r k ids k2 ids2 := by
  refine ⟨?_, clientsFor_length seed k r ids hk,
    clientsFor_nodup seed k r ids hnd hk, clientsFor_subset seed k r ids hk, ?_⟩
  · rw [sampleClients_ok seed k r ids hk]
    rfl
  · simp [sampleClients, hover]

/-- Witness for C2: sampling 2 of 5 clients succeeds with 2 distinct ids,
and sampling 3 of 2 clients fails with a `ConfigurationError`. -/
theorem sampler_size_and_config_error_witness :
    ([0, 1, 2, 3, 4] : List Nat).Nodup
    ∧ 2 ≤ ([0, 1, 2, 3, 4] : List Nat).length
    ∧ ([0, 1] : List Nat).length < 3
    ∧ c2Spec 3 0 2 [0, 1, 2, 3, 4] 3 [0, 1] :=
  ⟨by decide, by decide, by decide,
    sampler_size_and_config_error 3 0 2 [0, 1, 2, 3, 4] 3 [0, 1]
      (by decide) (by decide) (by decide)⟩

/-- The round-discipline property claimed for a run (C3): the trace opens
with the single `initialize` call, the `next` calls are exactly the rounds
`0 .. numRounds - 1` in order, each `next` call receives exactly `k`
distinct client datasets, the sampler and commit events strictly
alternate (so round `r + 1`'s sampling follows round `r`'s state commit),
and the final server state is the sequential left fold of `next` over the
rounds starting from the initial state. -/
def c3Spec {S T : Type} (p : IterativeProcess S T) (seed k : Nat)
    (ids : List Nat) (numRounds : Nat) : Prop :=
  (trainingLoopRun p seed k ids numRounds).trace.head? = some .initCall
  ∧ (trainingLoopRun p seed k ids numRounds).trace.countP isInitEvent = 1
  ∧ (trainingLoopRun p seed k ids numRounds).trace.filter isNextEvent
      = (List.range numRounds).map
          (fun r => .nextCall r (clientsFor seed k ids r))
  ∧ ((List.range numRounds).map (fun r => clientsFor seed k ids r)).all
      (fun c => c.length == k && c.dedup.length == c.length) = true
  ∧ (trainingLoopRun p seed k ids numRounds).trace.filterMap sampleCommitTag
      = (List.range numRounds).flatMap (fun r => [(false, r), (true, r)])
  ∧ (trainingLoopRun p seed k ids numRounds).finalState
      = (List.range numRounds).foldl
          (fun s r => (p.next s (clientsFor seed k ids r)).1) p.initState

/-- C3: in every experiment run, `initialize` is called exactly once,
before the first round; `next` is called exactly `numRounds` times,
sequentially in round index, each call receiving exactly
`clients_per_round` distinct client datasets; and round `r + 1`'s
sampling does not begin before round `r`'s returned server state is
committed. -/
theorem training_loop_round_discipline {S T : Type} (p : IterativeProcess S T)
    (seed k numRounds : Nat) (ids : List Nat)
    (hnd : ids.Nodup) (hk : k ≤ ids.length) :
    c3Spec p seed k ids numRounds := by
  have htrace : (trainingLoopRun p seed k ids numRounds).trace
      = .initCall :: (List.range numRounds).flatMap (roundEvents seed k ids) := by
    simp only [trainingLoopRun, runRounds_trace, List.range_eq_range']
  have hstate : (trainingLoopRun p seed k ids numRounds).finalState
      = (List.range numRounds).foldl
          (fun s r => (p.next s (clientsFor seed k ids r)).1) p.initState := by
    simp only [trainingLoopRun, runRounds_finalState, List.range_eq_range']
  refine ⟨?_, ?_, ?_, ?_, ?_, hstate⟩
  · rw [htrace]; rfl
  · rw [htrace, List.countP_cons]
    rw [bind_roundEvents_countP_init]
    rfl
  · rw [htrace, List.filter_cons]
    simp only [isNextEvent]
    rw [bind_roundEvents_filter_next]
    rfl
  · rw [List.all_eq_true]
    intro c hc
    rcases List.mem_map.mp hc with ⟨r, _, rfl⟩
    have hlen := clientsFor_length seed k r ids hk
    have hdedup := (clientsFor_nodup seed k r ids hnd hk).dedup
    rw [Bool.and_eq_true, beq_iff_eq, beq_iff_eq, hdedup]
    exact ⟨hlen, rfl⟩
  · rw [htrace, List.filterMap_cons]
    simp only [sampleCommitTag]
    rw [bind_roundEvents_filterMap_tag]

/-- A concrete iterative process standing in for the opaque external
training step in witnesses: the server state counts processed datasets. -/
def witnessProcess : IterativeProcess Nat Nat :=
  ⟨0, fun s clients => (s + clients.length, s)⟩

/-- Witness for C3: the spec's end-to-end scenario with `num_rounds = 3`,
`clients_per_round = 2` and 5 available client ids under a fixed seed. -/
theorem training_loop_round_discipline_witness :
    ([0, 1, 2, 3, 4] : List Nat).Nodup
    ∧ 2 ≤ ([0, 1, 2, 3, 4] : List Nat).length
    ∧ c3Spec witnessProcess 7 2 [0, 1, 2, 3, 4] 3 :=
  ⟨by decide, by decide,
    training_loop_round_discipline witnessProcess 7 2 3 [0, 1, 2, 3, 4]
      (by decide) (by decide)⟩

/-- The validation split of a held-out dataset: the first
`num_validation_examples` examples in the dataset's deterministic order
(`federated_stackoverflow.py` lines 140-141,
`base_test_dataset.take(num_validation_examples)`). -/
def validationSet {E : Type} (heldOut : List E) (num_validation_examples : Nat) :
    List E :=
  heldOut.take num_validation_examples

/-- The test split of a held-out dataset: everything after the first
`num_validation_examples` examples (`federated_stackoverflow.py`
lines 138-139, `base_test_dataset.skip(num_validation_examples)`). -/
def testSet {E : Type} (heldOut : List E) (num_validation_examples : Nat) :
    List E :=
  heldOut.drop num_validation_examples

/-- C4: for a held-out dataset of size `N` and cutoff `K ≤ N` fixed at
experiment setup, the split assigns the first `K` examples to validation
and the remaining `N - K` examples to test; the two partitions occupy
disjoint positions of the dataset and their concatenation equals the
original held-out dataset (hence also as multisets). -/
theorem evaluation_split_partition {E : Type} (heldOut : List E) (K : Nat)
    (hK : K ≤ heldOut.length) :
    (validationSet heldOut K).length = K
    ∧ (testSet heldOut K).length = heldOut.length - K
    ∧ validationSet heldOut K ++ testSet heldOut K = heldOut
    ∧ List.Disjoint (heldOut.enum.take K) (heldOut.enum.drop K) := by
  refine ⟨?_, ?_, ?_, ?_⟩
  · rw [validationSet, List.length_take]
    exact Nat.min_eq_left hK
  · rw [testSet, List.length_drop]
  · exact List.take_append_drop K heldOut
  · have hnd : heldOut.enum.Nodup := by
      have hfst : heldOut.enum.map Prod.fst = List.range heldOut.length :=
        List.enum_map_fst heldOut
      have : (heldOut.enum.map Prod.fst).Nodup := by
        rw [hfst]; exact List.nodup_range _
      exact this.of_map
    exact List.disjoint_take_drop hnd (Nat.le_refl K)

/-- Witness for C4 at a concrete held-out dataset of size 3 and cutoff 2. -/
theorem evaluation_split_partition_witness :
    2 ≤ ([10, 20, 30] : List Nat).length
    ∧ ((validationSet [10, 20, 30] 2).length = 2
        ∧ (testSet ([10, 20, 30] : List Nat) 2).length
            = ([10, 20, 30] : List Nat).length - 2
        ∧ validationSet [10, 20, 30] 2 ++ testSet [10, 20, 30] 2 = [10, 20, 30]
        ∧ List.Disjoint (([10, 20, 30] : List Nat).enum.take 2)
            (([10, 20, 30] : List Nat).enum.drop 2)) :=
  ⟨by decide, evaluation_split_partition [10, 20, 30] 2 (by decide)⟩

/-- What each task driver hands to the evaluation machinery: the held-out
dataset it loads, the validation cutoff its setup fixes (if any), and the
datasets its validation function and test function evaluate over. -/
structure DriverEvalWiring (E : Type) where
  heldOut : List E
  cutoff : Option Nat
  validationData : List E
  testData : List E

/-- The Stack Overflow driver's evaluation wiring
(`federated_stackoverflow.py` lines 133-189): the setup fixes the cutoff
`num_validation_examples`; `evaluate_fn` (the per-round validation
function) is built over `validation_set`, and `test_fn` is built over
`validation_set.concatenate(test_set)`. -/
def stackoverflowEvalWiring {E : Type} (heldOut : List E)
    (num_validation_examples : Nat) : DriverEvalWiring E :=
  { heldOut := heldOut
  , cutoff := some num_validation_examples
  , validationData := validationSet heldOut num_validation_examples
  , testData := validationSet heldOut num_validation_examples
      ++ testSet heldOut num_validation_examples }

/-- The EMNIST driver's evaluation wiring (`federated_emnist.py`
lines 107-121): `run_federated` has no validation-cutoff parameter and
builds a single `evaluate_fn` over the whole `emnist_test` dataset, which
it passes as both `validation_fn` and `test_fn`. -/
def emnistEvalWiring {E : Type} (emnistTest : List E) : DriverEvalWiring E :=
  { heldOut := emnistTest
  , cutoff := none
  , validationData := emnistTest
  , testData := emnistTest }

/-- The evaluation-split discipline claimed for every task driver (C5):
the setup fixes a cutoff `K`, the validation function evaluates on the
validation split (the first `K` examples of the held-out dataset) alone,
and the test function evaluates on the concatenation of the validation
split and the test split. -/
def evalSplitClaim {E : Type} (w : DriverEvalWiring E) : Prop :=
  ∃ K, w.cutoff = some K
    ∧ w.validationData = w.heldOut.take K
    ∧ w.testData = w.heldOut.take K ++ w.heldOut.drop K

/-- Counterexample to C5 as stated: the EMNIST task driver violates the
per-driver evaluation-split discipline — its setup fixes no validation
cutoff (and its validation and test functions both evaluate the entire
held-out dataset). -/
theorem evalSplitClaim_fails_for_emnist :
    ¬ evalSplitClaim (emnistEvalWiring ([0] : List Nat)) := by
  rintro ⟨K, hK, -, -⟩
  exact Option.noConfusion hK

/-- C5 (amended): in the Stack Overflow task driver, the test evaluation
function evaluates on the concatenation of the validation split and the
test split while the per-round validation function evaluates on the
validation split alone; the EMNIST driver fixes no cutoff and evaluates
both its validation function and its test function on the entire held-out
dataset. -/
theorem eval_targets_per_driver {E : Type} (heldOut : List E) (K : Nat)
    (d : List E) :
    evalSplitClaim (stackoverflowEvalWiring heldOut K)
    ∧ (emnistEvalWiring d).validationData = (emnistEvalWiring d).testData
    ∧ (emnistEvalWiring d).testData = d
    ∧ (emnistEvalWiring d).cutoff = none :=
  ⟨⟨K, rfl, rfl, rfl⟩, rfl, rfl, rfl⟩

/-- An evaluation function as produced by
`training_utils.build_evaluate_fn` (not part of this repository
snapshot), reduced to the datum the split claims depend on: the dataset
it evaluates the model over. -/
structure EvaluateFn (E : Type) where
  eval_dataset : List E

/-- The single evaluation function the EMNIST driver builds over the
entire `emnist_test` dataset (`federated_emnist.py` lines 107-112). -/
def emnistEvaluateFn {E : Type} (emnistTest : List E) : EvaluateFn E :=
  ⟨emnistTest⟩

/-- The `(validation_fn, test_fn)` pair the EMNIST driver passes to
`training_loop.run` (`federated_emnist.py` lines 117-121): the same
`evaluate_fn` twice. -/
def emnistLoopEvalArgs {E : Type} (emnistTest : List E) :
    EvaluateFn E × EvaluateFn E :=
  (emnistEvaluateFn emnistTest, emnistEvaluateFn emnistTest)

/-- C10: in the EMNIST driver, the validation function and the test
function passed to the round loop are the very same evaluation function,
built once over the entire held-out test dataset; no validation/test
partition at a cutoff is ever constructed for this task, so validation
and test evaluations always score the identical dataset. -/
theorem emnist_validation_equals_test {E : Type} (emnistTest : List E) :
    (emnistLoopEvalArgs emnistTest).1 = (emnistLoopEvalArgs emnistTest).2
    ∧ (emnistLoopEvalArgs emnistTest).1.eval_dataset = emnistTest
    ∧ (emnistEvalWiring emnistTest).cutoff = none
    ∧ (emnistEvalWiring emnistTest).validationData
        = (emnistEvalWiring emnistTest).testData :=
  ⟨rfl, rfl, rfl, rfl⟩

/-- A client's locally reported training outputs, reduced to the fields
the weighting claims depend on: `num_tokens`, carried as a single-element
int64 vector holding the non-padding token count, and the number of
examples processed this round. -/
structure ClientLocalOutputs where
  num_tokens : List Int
  num_examples : Int

/-- Modelled from the spec: `keras_metrics.NumTokensCounter` with
`masked_tokens=[pad_token]` (`federated_stackoverflow.py` line 120; the
`keras_metrics` module is not part of this repository snapshot) counts
the processed tokens whose value is not among the masked tokens, i.e. the
total non-padding token count (spec section 4.5). -/
def numTokensCount (masked_tokens : List Int) (labels : List Int) : Nat :=
  (labels.filter (fun t => !(masked_tokens.contains t))).length

/-- The locally reported outputs of a client that processed the token
stream `labels`: `num_tokens` is the single-element vector holding the
non-padding token count. -/
def reportedLocalOutputs (pad_token : Int) (labels : List Int)
    (numExamples : Int) : ClientLocalOutputs :=
  { num_tokens := [(numTokensCount [pad_token] labels : Int)]
  , num_examples := numExamples }

/-- `tf.squeeze` on a single-element vector: yields its one entry. -/
def tf_squeeze1 : List Int → Option Int
  | [x] => some x
  | _ => none

/-- `tf.cast(-, tf.float32)` on a token count; the cast is modelled as
value-preserving since token counts are integers. -/
def tf_cast_float (x : Int) : Int := x

/-- The Stack Overflow task's client weight function
(`federated_stackoverflow.py` lines 160-163): squeezes the single-element
`num_tokens` vector to a scalar and casts it for use as the weight in the
federated average of model deltas. -/
def client_weight_fn (local_outputs : ClientLocalOutputs) : Option Int :=
  (tf_squeeze1 local_outputs.num_tokens).map tf_cast_float

/-- C6: for the sequence task, the client weight function applied to a
client's locally reported outputs returns the client's non-padding token
count, squeezed from the single-element `num_tokens` vector to a scalar
(and cast, value-preservingly, to the weight scalar); the count it
consumes is the total token count excluding the padding token. -/
theorem sequence_task_client_weight (pad_token : Int) (labels : List Int)
    (numExamples : Int) :
    client_weight_fn (reportedLocalOutputs pad_token labels numExamples)
      = some ((numTokensCount [pad_token] labels : Int))
    ∧ numTokensCount [pad_token] labels
        = labels.countP (fun t => !(t == pad_token)) := by
  constructor
  · rfl
  · rw [numTokensCount, ← List.countP_eq_length_filter]
    refine List.countP_congr ?_
    intro t _
    simp

/-- Modelled from the spec: the client-weight selection of
`fed_avg_schedule.build_fed_avg_process` (not part of this repository
snapshot), as documented at `federated_trainer.py` lines 136-139: if no
`client_weight_fn` is provided, the weight in the federated average of
model deltas defaults to the total number of examples processed on
device. -/
def effectiveClientWeight (clientWeight : Option (ClientLocalOutputs → Int))
    (local_outputs : ClientLocalOutputs) : Int :=
  match clientWeight with
  | some f => f local_outputs
  | none => local_outputs.num_examples

/-- The EMNIST driver builds its iterative process without supplying a
client weight function (`federated_emnist.py` line 100:
`iterative_process_builder(tff_model_fn)` with no `client_weight_fn`
argument). -/
def emnistClientWeightFn : Option (ClientLocalOutputs → Int) := none

/-- C7: for a task that does not supply a client weight function (the
EMNIST character-recognition task), the weight used in the federated
average of model deltas defaults to the number of examples processed by
the client during the round. -/
theorem default_client_weight_is_num_examples
    (local_outputs : ClientLocalOutputs) :
    effectiveClientWeight emnistClientWeightFn local_outputs
      = local_outputs.num_examples := rfl

/-- The kinds of Keras metrics the sequence task builds
(`federated_stackoverflow.py` lines 109-121). -/
inductive MetricKind where
  | maskedCategoricalAccuracy
  | numBatchesCounter
  | numTokensCounter
deriving DecidableEq

/-- A metric as constructed by `metrics_builder`: its name, kind and the
tokens its accuracy computation excludes (the exclusion set). -/
structure KerasMetric where
  name : String
  kind : MetricKind
  masked_tokens : List Int

/-- The sequence task's metric set (`federated_stackoverflow.py`
lines 109-121), parameterized by the special tokens obtained from
`stackoverflow_dataset.get_special_tokens` (lines 103-107). -/
def metrics_builder (pad_token : Int) (oov_tokens : List Int)
    (eos_token : Int) : List KerasMetric :=
  [ ⟨"accuracy_with_oov", .maskedCategoricalAccuracy, [pad_token]⟩
  , ⟨"accuracy_no_oov", .maskedCategoricalAccuracy, [pad_token] ++ oov_tokens⟩
  , ⟨"accuracy_no_oov_or_eos", .maskedCategoricalAccuracy,
      [pad_token, eos_token] ++ oov_tokens⟩
  , ⟨"num_batches", .numBatchesCounter, []⟩
  , ⟨"num_tokens", .numTokensCounter, [pad_token]⟩ ]

/-- Whether a metric is a masked-accuracy metric. -/
def isMaskedAccuracyMetric (m : KerasMetric) : Bool :=
  match m.kind with
  | .maskedCategoricalAccuracy => true
  | _ => false

/-- C8: the sequence-task metrics set contains exactly three
masked-accuracy metrics, whose exclusion sets are the padding token; the
padding token plus all out-of-vocabulary bucket tokens; and the padding
and end-of-sequence tokens plus all out-of-vocabulary bucket tokens; the
beginning-of-sequence token (distinct from the other special tokens by
tokenizer construction) is in none of the three exclusion sets. -/
theorem sequence_task_masked_accuracy_metrics
    (pad_token eos_token bos_token : Int) (oov_tokens : List Int)
    (h₁ : bos_token ≠ pad_token) (h₂ : bos_token ≠ eos_token)
    (h₃ : bos_token ∉ oov_tokens) :
    ((metrics_builder pad_token oov_tokens eos_token).filter
        isMaskedAccuracyMetric).length = 3
    ∧ ((metrics_builder pad_token oov_tokens eos_token).filter
        isMaskedAccuracyMetric).map KerasMetric.masked_tokens
        = [[pad_token], [pad_token] ++ oov_tokens,
            [pad_token, eos_token] ++ oov_tokens]
    ∧ bos_token ∉ ([pad_token] : List Int)
    ∧ bos_token ∉ [pad_token] ++ oov_tokens
    ∧ bos_token ∉ [pad_token, eos_token] ++ oov_tokens := by
  refine ⟨?_, ?_, ?_, ?_, ?_⟩
  · rfl
  · rfl
  · simp [h₁]
  · simp [h₁, h₃]
  · simp [h₁, h₂, h₃]

/-- Witness for C8 at the concrete special tokens of a vocabulary of size
10000 with one out-of-vocabulary bucket. -/
theorem sequence_task_masked_accuracy_metrics_witness :
    ((10002 : Int) ≠ 0 ∧ (10002 : Int) ≠ 10003
        ∧ (10002 : Int) ∉ ([10001] : List Int))
    ∧ (((metrics_builder 0 [10001] 10003).filter
          isMaskedAccuracyMetric).length = 3
        ∧ ((metrics_builder 0 [10001] 10003).filter
            isMaskedAccuracyMetric).map KerasMetric.masked_tokens
            = [[0], [0] ++ [10001], [0, 10003] ++ [10001]]
        ∧ (10002 : Int) ∉ ([0] : List Int)
        ∧ (10002 : Int) ∉ [0] ++ [10001]
        ∧ (10002 : Int) ∉ [(0 : Int), 10003] ++ [10001]) :=
  ⟨⟨by decide, by decide, by decide⟩,
    sequence_task_masked_accuracy_metrics 0 10003 10002 [10001]
      (by decide) (by decide) (by decide)⟩

/-- Whether `n` is an initial segment of `hay`, on character lists. -/
def startsWithList : List Char → List Char → Bool
  | [], _ => true
  | _ :: _, [] => false
  | a :: as, b :: bs => a == b && startsWithList as bs

/-- Whether `needle` occurs contiguously inside `hay`, on character
lists. -/
def listIsInfixOf (needle : List Char) : List Char → Bool
  | [] => needle.isEmpty
  | c :: t => startsWithList needle (c :: t) || listIsInfixOf needle t

/-- Whether the string `hay` contains the string `needle`: the sense in
which an error message names a value. -/
def strContains (hay needle : String) : Bool :=
  listIsInfixOf needle.toList hay.toList

/-- The supported task names (`federated_trainer.py` lines 41-44). -/
def _SUPPORTED_TASKS : List String :=
  ["cifar100", "emnist_cr", "emnist_ae", "shakespeare", "stackoverflow_nwp",
    "stackoverflow_lr"]

/-- The allowed EMNIST model variants (`federated_emnist.py` line 28). -/
def EMNIST_MODELS : List String := ["cnn", "2nn"]

/-- Renders a list of names the way the error messages spell the allowed
set (Python str() quoting of the individual elements is elided). -/
def fmtStrList (l : List String) : String :=
  "[" ++ String.intercalate ", " l ++ "]"

/-- The message of the ValueError raised for an unsupported task
(`federated_trainer.py` lines 199-201). -/
def taskErrorMessage (task : String) : String :=
  "--task flag " ++ task
    ++ (" is not supported, must be one of " ++ fmtStrList _SUPPORTED_TASKS
        ++ ".")

/-- The message of the ValueError raised for an invalid EMNIST model
variant (`federated_emnist.py` lines 86-88). -/
def emnistModelErrorMessage (emnist_model : String) : String :=
  "Cannot handle model flag [" ++ emnist_model
    ++ ("], must be one of " ++ fmtStrList EMNIST_MODELS ++ ".")

/-- The EMNIST model variants. -/
inductive EmnistModel where
  | cnn
  | twoNN
deriving DecidableEq

/-- The model selection of the EMNIST driver (`federated_emnist.py`
lines 79-88): `cnn` and `2nn` select a model builder, anything else
raises a ValueError before the training loop is reached. -/
def selectEmnistModel (emnist_model : String) : Except String EmnistModel :=
  if emnist_model = "cnn" then .ok .cnn
  else if emnist_model = "2nn" then .ok .twoNN
  else .error (emnistModelErrorMessage emnist_model)

/-- The EMNIST driver (`federated_emnist.py` lines 31-121): validates the
model variant, then runs the training loop.  An invalid variant yields
the error before any round executes, so the error result carries no
event trace. -/
def run_federated_emnist {S T : Type} (p : IterativeProcess S T)
    (emnist_model : String) (seed k : Nat) (ids : List Nat)
    (numRounds : Nat) : Except String (List TraceEvent) :=
  match selectEmnistModel emnist_model with
  | .error e => .error e
  | .ok _ => .ok (trainingLoopRun p seed k ids numRounds).trace

/-- The task dispatch of `federated_trainer.main` (`federated_trainer.py`
lines 169-201): a supported task is dispatched to its driver (the
individual drivers are elided here), any other task name raises a
ValueError naming the flag value and the supported set, before any
training round. -/
def mainDispatch (task : String) : Except String Unit :=
  if task ∈ _SUPPORTED_TASKS then .ok () else .error (taskErrorMessage task)

theorem startsWithList_self_append (n b : List Char) :
    startsWithList n (n ++ b) = true := by
  induction n with
  | nil => rfl
  | cons a as ih => simp [startsWithList, ih]

theorem listIsInfixOf_self_append (n b : List Char) :
    listIsInfixOf n (n ++ b) = true := by
  match n with
  | [] =>
    match b with
    | [] => rfl
    | c :: t => simp [listIsInfixOf, startsWithList]
  | a :: as =>
    have h := startsWithList_self_append (a :: as) b
    simp only [List.cons_append] at h
    simp [listIsInfixOf, h]

theorem listIsInfixOf_append_left (n a b : List Char)
    (h : listIsInfixOf n b = true) : listIsInfixOf n (a ++ b) = true := by
  induction a with
  | nil => exact h
  | cons c t ih => simp [listIsInfixOf, ih]

theorem strToList_append (a b : String) :
    (a ++ b).toList = a.toList ++ b.toList := rfl

theorem strContains_mid (a mid b : String) :
    strContains (a ++ mid ++ b) mid = true := by
  rw [strContains, strToList_append, strToList_append]
  rw [List.append_assoc]
  exact listIsInfixOf_append_left _ _ _ (listIsInfixOf_self_append _ _)

theorem strContains_right (a b : String) (n : String)
    (h : strContains b n = true) : strContains (a ++ b) n = true := by
  rw [strContains, strToList_append]
  exact listIsInfixOf_append_left _ _ _ h

/-- The error-handling behavior claimed for invalid configuration (C9):
an unsupported task name makes the main dispatch fail with a message
naming the task value and every supported task name (so no driver, hence
no training round, runs), and an invalid EMNIST model variant makes the
EMNIST driver fail with a message naming the variant value and every
allowed variant, before any round of the training loop executes. -/
def c9Spec {S T : Type} (p : IterativeProcess S T) (task emnist_model : String)
    (seed k : Nat) (ids : List Nat) (numRounds : Nat) : Prop :=
  mainDispatch task = .error (taskErrorMessage task)
  ∧ strContains (taskErrorMessage task) task = true
  ∧ _SUPPORTED_TASKS.all (strContains (taskErrorMessage task)) = true
  ∧ run_federated_emnist p emnist_model seed k ids numRounds
      = .error (emnistModelErrorMessage emnist_model)
  ∧ strContains (emnistModelErrorMessage emnist_model) emnist_model = true
  ∧ EMNIST_MODELS.all (strContains (emnistModelErrorMessage emnist_model))
      = true

/-- C9: for every task name outside the supported set and every model
variant name outside the allowed set, the program fails fatally before
round 0 with a descriptive error message naming the invalid value and
the allowed set, and no training round is executed (the error result
carries no round trace). -/
theorem invalid_configuration_fails_eagerly {S T : Type}
    (p : IterativeProcess S T) (task emnist_model : String)
    (seed k : Nat) (ids : List Nat) (numRounds : Nat)
    (hTask : task ∉ _SUPPORTED_TASKS)
    (hModel : emnist_model ∉ EMNIST_MODELS) :
    c9Spec p task emnist_model seed k ids numRounds := by
  have hcnn : emnist_model ≠ "cnn" := by
    intro h; exact hModel (by rw [h]; simp [EMNIST_MODELS])
  have h2nn : emnist_model ≠ "2nn" := by
    intro h; exact hModel (by rw [h]; simp [EMNIST_MODELS])
  have hsel : selectEmnistModel emnist_model
      = .error (emnistModelErrorMessage emnist_model) := by
    rw [selectEmnistModel, if_neg hcnn, if_neg h2nn]
  refine ⟨?_, ?_, ?_, ?_, ?_, ?_⟩
  · rw [mainDispatch, if_neg hTask]
  · exact strContains_mid _ task _
  · rw [List.all_eq_true]
    intro t ht
    refine strContains_right _ _ _ ?_
    revert t
    rw [← List.all_eq_true]
    decide
  · rw [run_federated_emnist, hsel]
  · exact strContains_mid _ emnist_model _
  · rw [List.all_eq_true]
    intro m hm
    refine strContains_right _ _ _ ?_
    revert m
    rw [← List.all_eq_true]
    decide

/-- Witness for C9 at the unsupported task name mnist and the invalid
model variant rnn. -/
theorem invalid_configuration_fails_eagerly_witness :
    ("mnist" ∉ _SUPPORTED_TASKS)
    ∧ ("rnn" ∉ EMNIST_MODELS)
    ∧ c9Spec witnessProcess "mnist" "rnn" 0 1 [0] 1 :=
  ⟨by decide, by decide,
    invalid_configuration_fails_eagerly witnessProcess "mnist" "rnn" 0 1 [0] 1
      (by decide) (by decide)⟩

end FedOpt
